import Mathlib

/-!
Verification of the fsplayer repository (a fullscreen video player driving
libVLC, with an X11 build in `fsplayer.c` and a Win32 build in
`win32/main.cpp`) against its natural-language specification.

The definitions below are a shallow embedding of the program:

* keyboard transport commands (seek / volume / audio-track keys of the
  X11 event loop in `main`, and the Win32 `TrfMain::FormKeyDown`);
* the poll-loop session state machine of the X11 `main`;
* `PositionWindow`, `SetWindowFullscreen`, `TaskbarFindAndUnmap` /
  `TaskbarRaise` as state transformers over small records of the
  X11 server state that those functions touch;
* `FindX11Window` as a fuel-indexed recursive search over an abstract
  window-system interface (`X11`), instrumented with the list of
  windows it queries;
* the acquisition / teardown skeleton of the X11 `main` (`mainRun`),
  recording which resources were acquired and which teardown-path
  operations execute.

Machine integers: `libvlc_time_t` is a signed 64-bit integer and all time
arithmetic in the program stays far below 2^63, so times are modelled as
`Int` (negative values are meaningful: libvlc returns -1 on error, and the
END key can compute a negative target).  Volumes and track counts are C
`int`s, modelled as `Int`.  Window handles (`Window`, i.e. `XID`) are
modelled as `Nat`, with `0` the `None` sentinel exactly as in Xlib.
-/

/-! ## Constants (from fsplayer.c) -/

/-- FSPLAYER_10SEC from fsplayer.c. -/
def FSPLAYER_10SEC : Int := 10000

/-- FSPLAYER_1MIN from fsplayer.c. -/
def FSPLAYER_1MIN : Int := 60000

/-- FSPLAYER_10MIN from fsplayer.c. -/
def FSPLAYER_10MIN : Int := 600000

/-- ERROR_FSPLAYER_USAGE from fsplayer.c. -/
def ERROR_FSPLAYER_USAGE : Nat := 1

/-- ERROR_FSPLAYER_X11 from fsplayer.c. -/
def ERROR_FSPLAYER_X11 : Nat := 2

/-- ERROR_FSPLAYER_VLC from fsplayer.c. -/
def ERROR_FSPLAYER_VLC : Nat := 3

/-- ERROR_FSPLAYER_FAIL from fsplayer.c. -/
def ERROR_FSPLAYER_FAIL : Nat := 4

/-- ERROR_FSPLAYER_MEM from fsplayer.c. -/
def ERROR_FSPLAYER_MEM : Nat := 5

/-- ERROR_FSPLAYER_VLCRUN from fsplayer.c. -/
def ERROR_FSPLAYER_VLCRUN : Nat := 6

/-- The value of `libvlc_Stopped` in libvlc's `libvlc_state_t` enum
(NothingSpecial=0, Opening, Buffering, Playing, Paused, Stopped=5,
Ended=6, Error=7).  The loop check is `get_state(...) >= libvlc_Stopped`. -/
def libvlc_Stopped : Int := 5

/-- The value of `libvlc_Ended` in libvlc's `libvlc_state_t` enum. -/
def libvlc_Ended : Int := 6

/-! ## Keyboard commands

The X11 event loop of `main` (fsplayer.c) recognises these keys; the Win32
build's `TrfMain::FormKeyDown` implements the same seek arithmetic. -/

/-- The keys the X11 event loop dispatches on (one constructor per
`kc...` keycode looked up in `main`). -/
inductive VKey where
  | down | kEnd | esc | home
  | kpBegin | kpDown | kpEnd | kpHome | kpLeft
  | kpMinus | kpMult | kpPageDown | kpPageUp | kpPlus | kpRight | kpUp
  | left | pgDown | pgUp | right | space | up
deriving DecidableEq, Repr

/-- The argument the key handler passes to `libvlc_media_player_set_time`,
given the current time `t` (what `libvlc_media_player_get_time` returned)
and the media length `endT` (`iEndTimeMs`); `none` when the handler does
not call set-time at all.  Transcribed branch by branch from the
`KeyPress` dispatch in `main` (fsplayer.c); the Win32 `FormKeyDown` has
identical arithmetic for these keys. -/
def setTimeArg (k : VKey) (t endT : Int) : Option Int :=
  match k with
  | .down => some (if t ≤ FSPLAYER_1MIN then 0 else t - FSPLAYER_1MIN)
  | .kEnd => some (endT - FSPLAYER_10SEC)
  | .home => some 0
  | .left => some (if t ≤ FSPLAYER_10SEC then 0 else t - FSPLAYER_10SEC)
  | .pgDown => some (if t ≤ FSPLAYER_10MIN then 0 else t - FSPLAYER_10MIN)
  | .pgUp =>
      if t < endT - FSPLAYER_10SEC then
        some (if t < endT - FSPLAYER_10MIN then t + FSPLAYER_10MIN
              else endT - FSPLAYER_10SEC)
      else none
  | .right =>
      if t + FSPLAYER_10SEC < endT then some (t + FSPLAYER_10SEC) else none
  | .up =>
      if t < endT - FSPLAYER_10SEC then
        some (if t < endT - FSPLAYER_1MIN then t + FSPLAYER_1MIN
              else endT - FSPLAYER_10SEC)
      else none
  | _ => none

/-- The backward-seek keys (ARROW LEFT, ARROW DOWN, PAGE DOWN, HOME). -/
def backKey (k : VKey) : Bool :=
  match k with
  | .left | .down | .pgDown | .home => true
  | _ => false

/-- The relative forward-seek keys (ARROW RIGHT, ARROW UP, PAGE UP). -/
def fwdKey (k : VKey) : Bool :=
  match k with
  | .right | .up | .pgUp => true
  | _ => false

/-! ## Volume keys -/

/-- Keypad minus handler of the X11 `main`: volume decrease clamped at 0
(`iRet = libvlc_audio_get_volume(...) - 10; if (iRet < 0) iRet = 0;`). -/
def volDown (v : Int) : Int :=
  let r := v - 10
  if r < 0 then 0 else r

/-- Keypad plus handler, identical in both builds: volume increase clamped
at 100. -/
def volUp (v : Int) : Int :=
  let r := v + 10
  if r > 100 then 100 else r

/-- The Win32 `vkSubtract` handler of `TrfMain::FormKeyDown`: volume
decrease clamped at 1 (`if (i < 1) i = 1;`) — the floor differs from
the X11 build's 0. -/
def volDownWin (v : Int) : Int :=
  let r := v - 10
  if r < 1 then 1 else r

/-! ## PositionWindow (fsplayer.c) -/

/-- The attributes of a window that `PositionWindow` can observe or
affect: position, size, border width, depth (from `XGetGeometry`) and a
stacking-order tag (untouched by `XMoveWindow`; included so frame
properties can be stated). -/
structure WGeom where
  x : Int
  y : Int
  width : Nat
  height : Nat
  border : Nat
  depth : Nat
  stackOrder : Nat
deriving DecidableEq, Repr

/-- PositionWindow from fsplayer.c: reads the window geometry and, only
when the window is strictly smaller than the screen in both dimensions,
moves it (`XMoveWindow`) to one of nine keypad-numbered screen regions.
The subtractions and divisions are C `unsigned int` arithmetic; under the
`iWidth < scrx && iHeight < scry` guard they agree with `Nat` arithmetic.
A failed `XGetGeometry` would make the call a no-op, which only
strengthens the frame properties proved about it. -/
def PositionWindow (g : WGeom) (iKeypadPos : Int) (scrx scry : Nat) : WGeom :=
  if g.width < scrx ∧ g.height < scry then
    let x : Int :=
      if iKeypadPos = 1 ∨ iKeypadPos = 4 ∨ iKeypadPos = 7 then 0
      else if iKeypadPos = 3 ∨ iKeypadPos = 6 ∨ iKeypadPos = 9 then
        ((scrx - g.width : Nat) : Int)
      else (((scrx - g.width) / 2 : Nat) : Int)
    let y : Int :=
      if iKeypadPos = 7 ∨ iKeypadPos = 8 ∨ iKeypadPos = 9 then 0
      else if iKeypadPos = 1 ∨ iKeypadPos = 2 ∨ iKeypadPos = 3 then
        ((scry - g.height : Nat) : Int)
      else (((scry - g.height) / 2 : Nat) : Int)
    { g with x := x, y := y }
  else g

/-! ## SetWindowFullscreen (fsplayer.c) -/

/-- The window-system state `SetWindowFullscreen` manipulates: the target
window's position/size, its decoration hint and fullscreen-request
status, and the master window's position and override-redirect
attribute. -/
structure XWin where
  targetPos : Int × Int
  targetSize : Nat × Nat
  decorations : Bool
  fsRequested : Bool
  masterPos : Int × Int
  masterOR : Bool
deriving DecidableEq, Repr

/-- SetWindowFullscreen from fsplayer.c, as a transformer on `XWin`.
`ox`/`oy` are the coordinates `XTranslateCoordinates` reports for the
target relative to the root.  Steps, in source order: set the
`_MOTIF_WM_HINTS` zero-decoration property on the target;
`XMoveResizeWindow` the target to (0,0,scrx,scry); send the
`_NET_WM_STATE_FULLSCREEN` client message; then, only when `x > 0 || y > 0`,
read the master's `override_redirect`, force it on if it was off,
`XMoveWindow` the master to (-x,-y), and restore the flag if it had been
off. -/
def SetWindowFullscreen (s : XWin) (scrx scry : Nat) (ox oy : Int) : XWin :=
  let s1 := { s with decorations := false }
  let s2 := { s1 with targetPos := (0, 0), targetSize := (scrx, scry) }
  let s3 := { s2 with fsRequested := true }
  if ox > 0 ∨ oy > 0 then
    let or0 := s3.masterOR
    let s4 := if !or0 then { s3 with masterOR := true } else s3
    let s5 := { s4 with masterPos := (-ox, -oy) }
    if !or0 then { s5 with masterOR := false } else s5
  else s3

/-! ## Taskbar suppression (fsplayer.c) -/

/-- The window-system state the taskbar code manipulates: per-window
map state (`IsViewable` is modelled as mapped), per-window
override-redirect attribute, and the top of the stacking order
(`XMapRaised` raises). -/
structure XScreen where
  mapped : Nat → Bool
  overRedir : Nat → Bool
  stackTop : Option Nat

/-- TaskbarFindAndUnmap from fsplayer.c.  `found` stands for the outcome
of the inner `FindX11Window` search for the "xload" window: `none` when
`wXload` stayed 0, `some (wXload, wMaster)` otherwise.  When a window was
found and its master is an override-redirect, currently viewable window,
the master is recorded as the taskbar and unmapped; in every other case
the recorded handle is the 0 sentinel and nothing is touched.  (The
re-read of the attributes after the unmap is debug-only and read-only.) -/
def TaskbarFindAndUnmap (found : Option (Nat × Nat)) (s : XScreen) :
    Nat × XScreen :=
  match found with
  | none => (0, s)
  | some (_, m) =>
    if s.overRedir m && s.mapped m then
      (m, { s with mapped := fun w => if w = m then false else s.mapped w })
    else (0, s)

/-- TaskbarRaise from fsplayer.c: when the recorded taskbar handle is
non-zero, `XMapRaised` maps it and raises it to the top; with the 0
sentinel nothing happens. -/
def TaskbarRaise (tb : Nat) (s : XScreen) : XScreen :=
  if tb ≠ 0 then
    { s with mapped := fun w => if w = tb then true else s.mapped w,
             stackTop := some tb }
  else s

/-- The discovery found no matching panel: either the "xload" search
failed, or the found window's master is not an override-redirect viewable
window (the `attrib.override_redirect && attrib.map_state == IsViewable`
test of TaskbarFindAndUnmap fails). -/
def noPanel (found : Option (Nat × Nat)) (s : XScreen) : Bool :=
  match found with
  | none => true
  | some (_, m) => !(s.overRedir m && s.mapped m)

/-! ## The event-loop session (fsplayer.c `main`) -/

/-- The engine-visible playback state the key handlers mutate through
libvlc calls: the current time (set by `libvlc_media_player_set_time`),
the volume, the trace of `libvlc_audio_set_track` arguments, and the
pause toggle. -/
structure PlayerSt where
  time : Int
  volume : Int
  selTrace : List Int
  paused : Bool
deriving DecidableEq, Repr

/-- The session state of the X11 `main`'s event loop: the `iRunning`
flag, the error register `iErr`, the fixed media length `iEndTimeMs`,
the audio-track data (`iNumVlcAudioTracks`, `pVlcAudioTrackId`,
`iVlcAudioTrack`), the engine-visible player state, the master window's
geometry (for the keypad positioning keys) and the screen size. -/
structure Session where
  running : Bool
  err : Nat
  endTime : Int
  nTracks : Int
  trackIds : List Int
  trackIdx : Int
  player : PlayerSt
  master : WGeom
  scrx : Nat
  scry : Nat
deriving DecidableEq, Repr

/-- The `KeyPress` dispatch of the X11 event loop, one branch per
recognised keycode, in the source's order of effects: ESC clears
`iRunning`; SPACE toggles pause; keypad minus/plus adjust the volume
through `volDown`/`volUp`; keypad `*` advances the audio track cyclically
(guarded by `iNumVlcAudioTracks > 1`) and selects
`pVlcAudioTrackId[iVlcAudioTrack]`; keypad 1-9 call `PositionWindow` on
the master; the seek keys pass `setTimeArg` to
`libvlc_media_player_set_time` when it fires. -/
def dispatchKey (k : VKey) (s : Session) : Session :=
  match k with
  | .esc => { s with running := false }
  | .space => { s with player := { s.player with paused := !s.player.paused } }
  | .kpMinus =>
      { s with player := { s.player with volume := volDown s.player.volume } }
  | .kpPlus =>
      { s with player := { s.player with volume := volUp s.player.volume } }
  | .kpMult =>
      if 1 < s.nTracks then
        let idx := s.trackIdx + 1
        let idx2 := if idx = s.nTracks then 0 else idx
        { s with
            trackIdx := idx2,
            player := { s.player with
              selTrace := s.player.selTrace ++ [s.trackIds.getD idx2.toNat 0] } }
      else s
  | .kpBegin => { s with master := PositionWindow s.master 5 s.scrx s.scry }
  | .kpDown => { s with master := PositionWindow s.master 2 s.scrx s.scry }
  | .kpEnd => { s with master := PositionWindow s.master 1 s.scrx s.scry }
  | .kpHome => { s with master := PositionWindow s.master 7 s.scrx s.scry }
  | .kpLeft => { s with master := PositionWindow s.master 4 s.scrx s.scry }
  | .kpPageDown => { s with master := PositionWindow s.master 3 s.scrx s.scry }
  | .kpPageUp => { s with master := PositionWindow s.master 9 s.scrx s.scry }
  | .kpRight => { s with master := PositionWindow s.master 6 s.scrx s.scry }
  | .kpUp => { s with master := PositionWindow s.master 8 s.scrx s.scry }
  | _ =>
      match setTimeArg k s.player.time s.endTime with
      | some v => { s with player := { s.player with time := v } }
      | none => s

/-- One event drained by the inner `while (XPending(...))` loop: a key
press whose keycode matched one of the bound `kc...` codes (`some k`), a
key press on an unbound or unrecognised keycode (`none` — every `kc... &&`
guard fails), a button release (which only raises/refocuses windows on
the display side), or any other X event (ignored). -/
inductive XEv where
  | key (k : Option VKey)
  | buttonRelease
  | other
deriving DecidableEq, Repr

/-- Processing of one drained event by the event loop body. -/
def drainEvent (s : Session) (e : XEv) : Session :=
  match e with
  | .key (some k) => dispatchKey k s
  | .key none => s
  | .buttonRelease => s
  | .other => s

/-- Whether an event is a press of the escape key. -/
def isEscEv (e : XEv) : Bool :=
  match e with
  | .key (some .esc) => true
  | _ => false

/-- One iteration of the X11 event loop of `main`, from the drain of all
pending events to the end-of-cycle checks.  `stateQ` is what
`libvlc_media_player_get_state` answers this cycle and `timeQ` what
`libvlc_media_player_get_time` answers.  Source order: drain every
pending event; then `if (iRunning) { if (state >= libvlc_Stopped)
iRunning = 0; }`; then `if (iRunning) { t = get_time; if (t < 0) iErr =
ERROR_FSPLAYER_VLC; if (!iErr) { if (t >= iEndTimeMs) iRunning = 0; } }`.
The final focus tug-of-war block only raises/refocuses windows on the
display side and touches no session field. -/
def pollCycle (evs : List XEv) (stateQ timeQ : Int) (s : Session) : Session :=
  let s1 := evs.foldl drainEvent s
  let s2 := if s1.running ∧ libvlc_Stopped ≤ stateQ then
              { s1 with running := false }
            else s1
  if s2.running then
    let s3 := if timeQ < 0 then { s2 with err := ERROR_FSPLAYER_VLC } else s2
    if s3.err = 0 ∧ s3.endTime ≤ timeQ then { s3 with running := false } else s3
  else s2

/-! ## Claim C1 — seek clamping -/

/-- Claim C1, as stated by the spec, is false on the code: the RIGHT key
accepts any target strictly below `endTime`, including targets inside the
last 10 seconds (here 124000 > endTime - 10000 = 115000), and the END key
passes `endTime - 10000` even when `endTime < 10000`, which is negative. -/
theorem claim_C1_counterexample :
    (setTimeArg VKey.right 114000 125000 = some 124000 ∧
      (125000 : Int) - FSPLAYER_10SEC < 124000) ∧
    (setTimeArg VKey.kEnd 0 5000 = some (-5000) ∧ (-5000 : Int) < 0) := by
  decide

/-- Claim C1 (amended): for a seek key dispatched with current time
`t ≥ 0`, whenever the handler calls set-time with argument `v`:
backward seeks (LEFT, DOWN, PAGE DOWN, HOME) give `0 ≤ v ≤ t`;
relative forward seeks (RIGHT, UP, PAGE UP) give `t < v < endT` — never
at or past the end, but possibly inside the reserved last 10 seconds;
END passes exactly `endT - 10000`, unconditionally (negative when
`endT < 10000`). -/
theorem claim_C1 (t endT : Int) (h0 : 0 ≤ t) (k : VKey) (v : Int)
    (h : setTimeArg k t endT = some v) :
    (backKey k = true → 0 ≤ v ∧ v ≤ t) ∧
    (fwdKey k = true → t < v ∧ v < endT) ∧
    (k = VKey.kEnd → v = endT - FSPLAYER_10SEC) := by
  cases k <;>
    simp only [setTimeArg, backKey, fwdKey, FSPLAYER_10SEC, FSPLAYER_1MIN,
      FSPLAYER_10MIN] at h ⊢ <;>
    (try split_ifs at h) <;>
    simp_all <;>
    omega

/-- Witness for claim C1 at a concrete input: LEFT at time 5000 in a
125000 ms medium passes 0, which is within [0, 5000]. -/
theorem claim_C1_witness :
    (0 : Int) ≤ 5000 ∧ (0 ≤ (0 : Int) ∧ (0 : Int) ≤ 5000) :=
  ⟨by decide,
   (claim_C1 5000 125000 (by decide) VKey.left 0 (by decide)).1 (by decide)⟩

/-! ## Claim C7 — volume clamp boundaries -/

/-- Repeated X11 volume decrease hits the floor 0 after enough steps. -/
theorem volDown_reaches (n : Nat) :
    ∀ v : Int, v ≤ 10 * n → volDown^[n + 1] v = 0 := by
  induction n with
  | zero =>
    intro v hv
    simp only [Nat.zero_add, Function.iterate_one, volDown]
    split <;> omega
  | succ n ih =>
    intro v hv
    rw [Function.iterate_succ_apply]
    apply ih
    simp only [volDown]
    split <;> omega

/-- Repeated Win32 volume decrease hits the floor 1 after enough steps. -/
theorem volDownWin_reaches (n : Nat) :
    ∀ v : Int, v ≤ 1 + 10 * n → volDownWin^[n + 1] v = 1 := by
  induction n with
  | zero =>
    intro v hv
    simp only [Nat.zero_add, Function.iterate_one, volDownWin]
    split <;> omega
  | succ n ih =>
    intro v hv
    rw [Function.iterate_succ_apply]
    apply ih
    simp only [volDownWin]
    split <;> omega

/-- Repeated volume increase hits the ceiling 100 after enough steps. -/
theorem volUp_reaches (n : Nat) :
    ∀ v : Int, 100 - 10 * n ≤ v → volUp^[n + 1] v = 100 := by
  induction n with
  | zero =>
    intro v hv
    simp only [Nat.zero_add, Function.iterate_one, volUp]
    split <;> omega
  | succ n ih =>
    intro v hv
    rw [Function.iterate_succ_apply]
    apply ih
    simp only [volUp]
    split <;> omega

/-- Claim C7: volume moves in steps of 10 with clamped, idempotent
boundaries: from any starting volume, repeatedly pressing keypad minus
eventually reaches and then stays at the floor (0 on the X11 build, 1 on
the Win32 build), and repeatedly pressing keypad plus eventually reaches
and then stays at 100; a decrease at the floor and an increase at 100
leave the volume unchanged. -/
theorem claim_C7 :
    (∀ v : Int, ∃ k, ∀ j, volDown^[k + j] v = 0) ∧ volDown 0 = 0 ∧
    (∀ v : Int, ∃ k, ∀ j, volDownWin^[k + j] v = 1) ∧ volDownWin 1 = 1 ∧
    (∀ v : Int, ∃ k, ∀ j, volUp^[k + j] v = 100) ∧ volUp 100 = 100 := by
  have fix0 : volDown 0 = 0 := by simp [volDown]
  have fix1 : volDownWin 1 = 1 := by simp [volDownWin]
  have fix100 : volUp 100 = 100 := by simp [volUp]
  refine ⟨fun v => ⟨v.toNat + 1, fun j => ?_⟩, fix0,
          fun v => ⟨v.toNat + 1, fun j => ?_⟩, fix1,
          fun v => ⟨(100 - v).toNat + 1, fun j => ?_⟩, fix100⟩
  · rw [Nat.add_comm, Function.iterate_add_apply,
        volDown_reaches v.toNat v (by omega)]
    exact Function.iterate_fixed fix0 j
  · rw [Nat.add_comm, Function.iterate_add_apply,
        volDownWin_reaches v.toNat v (by omega)]
    exact Function.iterate_fixed fix1 j
  · rw [Nat.add_comm, Function.iterate_add_apply,
        volUp_reaches (100 - v).toNat v (by omega)]
    exact Function.iterate_fixed fix100 j

/-! ## Claim C3 — fullscreen corrective move -/

/-- A concrete pre-state for the fullscreen counterexample and witness. -/
def xwCE : XWin :=
  { targetPos := (5, 5), targetSize := (640, 480), decorations := true,
    fsRequested := false, masterPos := (0, 0), masterOR := false }

/-- Claim C3, as stated over "non-zero" offsets, is false on the code:
the guard is `x > 0 || y > 0`, so the non-zero offset (-1, 0) triggers no
corrective move and the master does not end at (1, 0). -/
theorem claim_C3_counterexample :
    ((-1 : Int), (0 : Int)) ≠ ((0 : Int), (0 : Int)) ∧
    (SetWindowFullscreen xwCE 800 600 (-1) 0).masterPos ≠
      (-(-1 : Int), -(0 : Int)) := by
  decide

/-- Claim C3 (amended): when the translated offset of the target relative
to the root has a positive coordinate (`x > 0 || y > 0`),
`SetWindowFullscreen` ends with the master moved to exactly (-x, -y) and
the master's override-redirect attribute equal to its pre-call value;
when neither coordinate is positive (including non-zero offsets with both
coordinates ≤ 0) the master is not moved, and the attribute is likewise
unchanged. -/
theorem claim_C3 (s : XWin) (scrx scry : Nat) (ox oy : Int) :
    ((0 < ox ∨ 0 < oy) →
      (SetWindowFullscreen s scrx scry ox oy).masterPos = (-ox, -oy) ∧
      (SetWindowFullscreen s scrx scry ox oy).masterOR = s.masterOR) ∧
    (¬(0 < ox ∨ 0 < oy) →
      (SetWindowFullscreen s scrx scry ox oy).masterPos = s.masterPos ∧
      (SetWindowFullscreen s scrx scry ox oy).masterOR = s.masterOR) := by
  constructor
  · intro h
    cases hOR : s.masterOR <;>
      simp [SetWindowFullscreen, h, hOR]
  · intro h
    simp [SetWindowFullscreen, h]

/-- Witness for claim C3 at a concrete input: offset (3, 2) moves the
master to (-3, -2) and preserves override-redirect. -/
theorem claim_C3_witness :
    ((0 : Int) < 3 ∨ (0 : Int) < 2) ∧
    (SetWindowFullscreen xwCE 800 600 3 2).masterPos = (-3, -2) ∧
    (SetWindowFullscreen xwCE 800 600 3 2).masterOR = xwCE.masterOR :=
  ⟨Or.inl (by decide),
   ((claim_C3 xwCE 800 600 3 2).1 (Or.inl (by decide))).1,
   ((claim_C3 xwCE 800 600 3 2).1 (Or.inl (by decide))).2⟩

/-! ## Claim C9 — taskbar no-ops without a panel -/

/-- Claim C9: when the taskbar discovery finds no matching panel, the
recorded handle is the 0 sentinel, the screen state is untouched,
restoring with the recorded handle is a no-op, and repeating either
operation changes nothing. -/
theorem claim_C9 (found : Option (Nat × Nat)) (s : XScreen)
    (h : noPanel found s = true) :
    (TaskbarFindAndUnmap found s).1 = 0 ∧
    (TaskbarFindAndUnmap found s).2 = s ∧
    TaskbarRaise (TaskbarFindAndUnmap found s).1
      (TaskbarFindAndUnmap found s).2 = s ∧
    TaskbarFindAndUnmap found (TaskbarFindAndUnmap found s).2 =
      TaskbarFindAndUnmap found s ∧
    TaskbarRaise 0 (TaskbarRaise 0 s) = s := by
  have h1 : TaskbarFindAndUnmap found s = (0, s) := by
    cases found with
    | none => rfl
    | some p =>
      obtain ⟨x, m⟩ := p
      simp only [noPanel, Bool.not_eq_true'] at h
      simp [TaskbarFindAndUnmap, h]
  have h2 : TaskbarRaise 0 s = s := by simp [TaskbarRaise]
  rw [h1, h2]
  exact ⟨rfl, rfl, h2, h1, h2⟩

/-- A concrete screen for the taskbar witness: window 7 is mapped but not
override-redirect, so the attribute test rejects it. -/
def xsW : XScreen :=
  { mapped := fun _ => true, overRedir := fun _ => false, stackTop := none }

/-- Witness for claim C9 at a concrete input. -/
theorem claim_C9_witness :
    noPanel (some (5, 7)) xsW = true ∧
    (TaskbarFindAndUnmap (some (5, 7)) xsW).1 = 0 :=
  ⟨by decide, (claim_C9 (some (5, 7)) xsW (by decide)).1⟩

/-! ## Claim C10 — PositionWindow frame properties -/

/-- Claim C10: `PositionWindow` changes at most the (x, y) position —
width, height, border, depth and stacking order are untouched for every
keypad region — and performs no move at all when the window is at least
as wide or as tall as the screen. -/
theorem claim_C10 (g : WGeom) (pos : Int) (scrx scry : Nat) :
    ((PositionWindow g pos scrx scry).width = g.width ∧
     (PositionWindow g pos scrx scry).height = g.height ∧
     (PositionWindow g pos scrx scry).border = g.border ∧
     (PositionWindow g pos scrx scry).depth = g.depth ∧
     (PositionWindow g pos scrx scry).stackOrder = g.stackOrder) ∧
    (scrx ≤ g.width ∨ scry ≤ g.height → PositionWindow g pos scrx scry = g) := by
  constructor
  · unfold PositionWindow
    split <;> simp
  · intro hc
    unfold PositionWindow
    rw [if_neg (by omega)]

/-- A concrete window as large as the screen for the C10 witness. -/
def gW : WGeom :=
  { x := 1, y := 2, width := 800, height := 600, border := 0, depth := 24,
    stackOrder := 3 }

/-- Witness for claim C10 at a concrete input: an 800x600 window on an
800x600 screen is not moved at all. -/
theorem claim_C10_witness :
    ((800 : Nat) ≤ gW.width ∨ (600 : Nat) ≤ gW.height) ∧
    PositionWindow gW 5 800 600 = gW :=
  ⟨Or.inl (by decide), (claim_C10 gW 5 800 600).2 (Or.inl (by decide))⟩

/-! ## Claim C5 — poll-loop exit conditions -/

/-- No key handler touches the error register. -/
theorem dispatchKey_err (k : VKey) (s : Session) :
    (dispatchKey k s).err = s.err := by
  cases k <;> first
    | rfl
    | (simp only [dispatchKey]; split <;> rfl)

/-- No key handler touches the media length. -/
theorem dispatchKey_endTime (k : VKey) (s : Session) :
    (dispatchKey k s).endTime = s.endTime := by
  cases k <;> first
    | rfl
    | (simp only [dispatchKey]; split <;> rfl)

/-- Only the escape key clears the running flag; no key sets it. -/
theorem dispatchKey_running (k : VKey) (s : Session) :
    (dispatchKey k s).running = if k = VKey.esc then false else s.running := by
  cases k <;>
    simp only [dispatchKey, reduceCtorEq, if_neg, if_pos, ite_false, ite_true] <;>
    first
      | rfl
      | (split <;> rfl)

/-- Draining events preserves the error register and media length, and
leaves the loop running exactly when it was running and no drained event
was an escape key press. -/
theorem drain_foldl (evs : List XEv) (s : Session) :
    (evs.foldl drainEvent s).err = s.err ∧
    (evs.foldl drainEvent s).endTime = s.endTime ∧
    (evs.foldl drainEvent s).running = (s.running && !(evs.any isEscEv)) := by
  induction evs generalizing s with
  | nil => simp
  | cons e evs ih =>
    obtain ⟨h1, h2, h3⟩ := ih (drainEvent s e)
    have he : (drainEvent s e).err = s.err := by
      cases e with
      | key ko => cases ko with
        | none => rfl
        | some k => exact dispatchKey_err k s
      | buttonRelease => rfl
      | other => rfl
    have ht : (drainEvent s e).endTime = s.endTime := by
      cases e with
      | key ko => cases ko with
        | none => rfl
        | some k => exact dispatchKey_endTime k s
      | buttonRelease => rfl
      | other => rfl
    have hr : (drainEvent s e).running = (s.running && !(isEscEv e)) := by
      cases e with
      | key ko =>
        cases ko with
        | none => simp [drainEvent, isEscEv]
        | some k =>
          rw [show drainEvent s (XEv.key (some k)) = dispatchKey k s from rfl,
              dispatchKey_running]
          by_cases hk : k = VKey.esc
          · subst hk; simp [isEscEv]
          · cases k <;> simp_all [isEscEv]
      | buttonRelease => simp [drainEvent, isEscEv]
      | other => simp [drainEvent, isEscEv]
    refine ⟨by rw [List.foldl_cons, h1, he],
            by rw [List.foldl_cons, h2, ht], ?_⟩
    rw [List.foldl_cons, h3, hr, List.any_cons]
    cases s.running <;> cases isEscEv e <;> simp

/-- Claim C5: from a Running session (`iRunning` set, no error recorded),
one poll cycle leaves the loop in the Running state (so the `while
(iRunning && !iErr)` loop continues) exactly when no escape key was
drained, the queried engine state is strictly below `libvlc_Stopped`
(so in particular `libvlc_Ended` exits, whatever key events were pending
that cycle), and the queried play time is neither negative nor at/past
the media end time; moreover a negative queried time records
`ERROR_FSPLAYER_VLC` as a fatal engine error while exiting. -/
theorem claim_C5 (evs : List XEv) (stateQ timeQ : Int) (s : Session)
    (hr : s.running = true) (he : s.err = 0) :
    (((pollCycle evs stateQ timeQ s).running = true ∧
      (pollCycle evs stateQ timeQ s).err = 0) ↔
      (evs.any isEscEv = false ∧ stateQ < libvlc_Stopped ∧
       0 ≤ timeQ ∧ timeQ < s.endTime)) ∧
    (evs.any isEscEv = false → stateQ < libvlc_Stopped → timeQ < 0 →
      (pollCycle evs stateQ timeQ s).err = ERROR_FSPLAYER_VLC) := by
  obtain ⟨h1, h2, h3⟩ := drain_foldl evs s
  rw [hr, Bool.true_and] at h3
  rw [he] at h1
  simp only [pollCycle]
  split_ifs <;>
    simp_all [libvlc_Stopped, ERROR_FSPLAYER_VLC]

/-- A concrete session used by the claim C5 witness: 3 audio tracks with
ids [2,5,7], cursor at 0, running, no error, media length 125000 ms. -/
def sessD : Session :=
  { running := true, err := 0, endTime := 125000, nTracks := 3,
    trackIds := [2, 5, 7], trackIdx := 0,
    player := { time := 0, volume := 50, selTrace := [], paused := false },
    master := { x := 0, y := 0, width := 100, height := 100, border := 0,
                depth := 24, stackOrder := 0 },
    scrx := 800, scry := 600 }

/-- Witness for claim C5 at a concrete input (end-to-end scenario D): the
engine reports `libvlc_Ended` during a cycle with a pending RIGHT key
event, and the loop still leaves the Running state. -/
theorem claim_C5_witness :
    ¬((pollCycle [XEv.key (some VKey.right)] libvlc_Ended 0 sessD).running = true ∧
      (pollCycle [XEv.key (some VKey.right)] libvlc_Ended 0 sessD).err = 0) := by
  intro hc
  have h :=
    ((claim_C5 [XEv.key (some VKey.right)] libvlc_Ended 0 sessD rfl rfl).1).mp hc
  exact absurd h.2.1 (by decide)

/-! ## Claim C6 — cyclic audio-track advance -/

/-- Evaluation of the keypad `*` handler when more than one track exists. -/
theorem kpMult_step (s : Session) (hn : 1 < s.nTracks) :
    dispatchKey VKey.kpMult s =
      { s with
          trackIdx := if s.trackIdx + 1 = s.nTracks then 0 else s.trackIdx + 1,
          player := { s.player with
            selTrace := s.player.selTrace ++
              [s.trackIds.getD
                (if s.trackIdx + 1 = s.nTracks then 0 else s.trackIdx + 1).toNat
                0] } } := by
  simp [dispatchKey, hn]

/-- The wrap-at-n successor of the handler equals the mod-n successor on
in-range cursors. -/
theorem kpMult_idx_mod (i n : Int) (h2 : 0 ≤ i) (h3 : i < n) :
    (if i + 1 = n then 0 else i + 1) = (i + 1) % n := by
  split_ifs with hi
  · rw [hi, Int.emod_self]
  · rw [Int.emod_eq_of_lt (by omega) (by omega)]

/-- Iterating the keypad `*` handler advances the cursor by k modulo the
track count and changes neither the track count nor the id list. -/
theorem kpMult_iter (s : Session) (h2 : 0 ≤ s.trackIdx)
    (h3 : s.trackIdx < s.nTracks) (hn : 1 < s.nTracks) :
    ∀ k : Nat,
      ((dispatchKey VKey.kpMult)^[k] s).trackIdx =
        (s.trackIdx + k) % s.nTracks ∧
      ((dispatchKey VKey.kpMult)^[k] s).nTracks = s.nTracks ∧
      ((dispatchKey VKey.kpMult)^[k] s).trackIds = s.trackIds := by
  intro k
  induction k with
  | zero =>
    refine ⟨?_, rfl, rfl⟩
    simp only [Function.iterate_zero, id_eq, Nat.cast_zero, Int.add_zero]
    exact (Int.emod_eq_of_lt h2 h3).symm
  | succ k ih =>
    obtain ⟨hi, htn, htl⟩ := ih
    rw [Function.iterate_succ_apply']
    set s1 := (dispatchKey VKey.kpMult)^[k] s with hs1
    have hn1 : 1 < s1.nTracks := by rw [htn]; exact hn
    have hlo : 0 ≤ s1.trackIdx := by
      rw [hi]; exact Int.emod_nonneg _ (by omega)
    have hhi : s1.trackIdx < s1.nTracks := by
      rw [hi, htn]; exact Int.emod_lt_of_pos _ (by omega)
    rw [kpMult_step s1 hn1]
    refine ⟨?_, htn, htl⟩
    show (if s1.trackIdx + 1 = s1.nTracks then 0 else s1.trackIdx + 1) = _
    rw [kpMult_idx_mod s1.trackIdx s1.nTracks hlo hhi, hi, htn]
    have h1n : (1 : Int) % s.nTracks = 1 :=
      Int.emod_eq_of_lt (by omega) (by omega)
    rw [show ((s.trackIdx : Int) + ((k + 1 : Nat) : Int)) =
          s.trackIdx + (k : Int) + 1 by push_cast; ring]
    rw [Int.add_emod (s.trackIdx + (k : Int)) 1 s.nTracks, h1n]

/-- A concrete session for end-to-end scenario C of claim C6: 3 audio
tracks with ids [2,5,7] and the cursor at index 0. -/
def sessC : Session :=
  { running := true, err := 0, endTime := 125000, nTracks := 3,
    trackIds := [2, 5, 7], trackIdx := 0,
    player := { time := 0, volume := 50, selTrace := [], paused := false },
    master := { x := 0, y := 0, width := 100, height := 100, border := 0,
                depth := 24, stackOrder := 0 },
    scrx := 800, scry := 600 }

/-- Claim C6: audio-track advance is the cyclic successor on the index of
the track-id list: with the cursor in range and more than one track, a
press moves the cursor to the incremented (mod n) index and selects the
id stored there, and n presses return the cursor to its start; with
n ≤ 1 tracks a press changes nothing and calls no engine selection; in
scenario C (ids [2,5,7], cursor 0), three presses select 5, 7, 2 in that
order and return the cursor to 0. -/
theorem claim_C6 (s : Session) (h1 : s.nTracks = (s.trackIds.length : Int))
    (h2 : 0 ≤ s.trackIdx) (h3 : s.trackIdx < s.nTracks) :
    (1 < s.nTracks →
      (dispatchKey VKey.kpMult s).trackIdx = (s.trackIdx + 1) % s.nTracks ∧
      (dispatchKey VKey.kpMult s).player.selTrace =
        s.player.selTrace ++
          [s.trackIds.getD ((s.trackIdx + 1) % s.nTracks).toNat 0] ∧
      ((dispatchKey VKey.kpMult)^[s.trackIds.length] s).trackIdx =
        s.trackIdx) ∧
    (s.nTracks ≤ 1 → dispatchKey VKey.kpMult s = s) ∧
    (((dispatchKey VKey.kpMult)^[3] sessC).player.selTrace = [5, 7, 2] ∧
     ((dispatchKey VKey.kpMult)^[3] sessC).trackIdx = 0) := by
  refine ⟨fun hn => ?_, fun hn => ?_, by decide⟩
  · have hmod := kpMult_idx_mod s.trackIdx s.nTracks h2 h3
    refine ⟨?_, ?_, ?_⟩
    · rw [kpMult_step s hn]
      exact hmod
    · rw [kpMult_step s hn]
      show s.player.selTrace ++ _ = _
      rw [hmod]
    · have := (kpMult_iter s h2 h3 hn s.trackIds.length).1
      rw [this, ← h1, Int.add_emod_self]
      exact Int.emod_eq_of_lt h2 h3
  · rw [dispatchKey]
    rw [if_neg (by omega)]

/-- Witness for claim C6 at a concrete input: in scenario C, three
presses (the length of the id list) return the cursor to index 0. -/
theorem claim_C6_witness :
    (0 : Int) ≤ sessC.trackIdx ∧
    ((dispatchKey VKey.kpMult)^[sessC.trackIds.length] sessC).trackIdx =
      sessC.trackIdx :=
  ⟨by decide,
   ((claim_C6 sessC (by decide) (by decide) (by decide)).1 (by decide)).2.2⟩

/-! ## FindX11Window (fsplayer.c)

The search runs against the live window hierarchy through
`XGetWindowProperty` and `XQueryTree`; the `X11` structure abstracts
those two queries (both modelled as succeeding, as the claims'
hierarchies are well-formed).  `Window` handles are `Nat`, with 0 for
Xlib's `None` (the parent `XQueryTree` reports for the root). -/

/-- The window-system interface `FindX11Window` queries: the value of
the searched property on each window (`XGetWindowProperty`, `none` when
the property is absent), and the root / parent / children outputs of
`XQueryTree`. -/
structure X11 where
  prop : Nat → Option String
  parent : Nat → Nat
  children : Nat → List Nat
  root : Nat

/-- The child-skip guard of FindX11Window:
`pChildren[i] != w && pChildren[i] != wRoot && pChildren[i] != wParent`. -/
def childOk (h : X11) (w c : Nat) : Bool :=
  c != w && c != h.root && c != h.parent w

/-- The observable outcome of a FindX11Window call: the returned
`iFound`, the final values behind `pReturn` and `pMaster`, and the list
of windows the call queried (each recursive activation queries exactly
its own window, first with `XGetWindowProperty`, then possibly with
`XQueryTree`). -/
structure FindRes where
  found : Bool
  ret : Nat
  master : Nat
  visited : List Nat
deriving DecidableEq, Repr

mutual

/-- FindX11Window from fsplayer.c.  `fuel` bounds the recursion depth
(the C code has no such bound; every theorem below supplies fuel at
least the hierarchy's depth, below which the embedding and the C code
agree).  If the property of `w` equals `val`, record `w` in `pReturn`
and return found; otherwise query the tree and walk the children. -/
def findX11Window (h : X11) (val : String) (fuel w ret master : Nat) :
    FindRes :=
  match fuel with
  | 0 => ⟨false, ret, master, []⟩
  | fuel' + 1 =>
    if h.prop w = some val then ⟨true, w, master, [w]⟩
    else
      let r := findX11Kids h val fuel' w (h.children w) ret master
      ⟨r.found, r.ret, r.master, w :: r.visited⟩
termination_by (fuel, 0)

/-- The `for (i = 0 ; i < nChildren && !iFound ; i++)` loop of
FindX11Window: children failing the skip guard are ignored; before
descending from the root, `*pMaster` is set to the child being entered;
the loop stops at the first found result. -/
def findX11Kids (h : X11) (val : String) (fuel w : Nat) (cs : List Nat)
    (ret master : Nat) : FindRes :=
  match cs with
  | [] => ⟨false, ret, master, []⟩
  | c :: cs' =>
    if childOk h w c then
      let r := findX11Window h val fuel c ret
                 (if w = h.root then c else master)
      if r.found then r
      else
        let r2 := findX11Kids h val fuel w cs' r.ret r.master
        ⟨r2.found, r2.ret, r2.master, r.visited ++ r2.visited⟩
    else findX11Kids h val fuel w cs' ret master
termination_by (fuel, cs.length + 1)

end

/-! ## Synthetic window hierarchies -/

/-- A synthetic window hierarchy: a window id, the value of the searched
name property on that window (`none` when absent), and the child
subtrees. -/
inductive WTree : Type where
  | node (wid : Nat) (wname : Option String) (kids : List WTree) : WTree
deriving Repr

/-- The id at the root of a subtree. -/
def WTree.wid : WTree → Nat
  | .node i _ _ => i

/-- The property value at the root of a subtree. -/
def WTree.wname : WTree → Option String
  | .node _ n _ => n

/-- The child subtrees at the root of a subtree. -/
def WTree.kids : WTree → List WTree
  | .node _ _ ks => ks

mutual

/-- The height of a subtree (at least 1). -/
def WTree.depth : WTree → Nat
  | .node _ _ ks => depthList ks + 1

/-- The maximal height among a list of subtrees. -/
def depthList : List WTree → Nat
  | [] => 0
  | t :: ts => max t.depth (depthList ts)

end

mutual

/-- All window ids of a subtree in preorder (self first, then the
children left to right) — the order FindX11Window visits them. -/
def WTree.preIds : WTree → List Nat
  | .node i _ ks => i :: preIdsList ks

/-- Preorder ids of a list of subtrees. -/
def preIdsList : List WTree → List Nat
  | [] => []
  | t :: ts => t.preIds ++ preIdsList ts

end

mutual

/-- The ids, in preorder, of the windows of a subtree whose property
equals `val`. -/
def WTree.matchIds (val : String) : WTree → List Nat
  | .node i nm ks => (if nm = some val then [i] else []) ++ matchIdsList val ks

/-- Matching ids of a list of subtrees. -/
def matchIdsList (val : String) : List WTree → List Nat
  | [] => []
  | t :: ts => t.matchIds val ++ matchIdsList val ts

end

mutual

/-- The interface `h` agrees with the subtree: at every node, the
property query answers the node's name; the node's `XQueryTree` children
list, once the skip guard removes entries (necessarily equal to the node
itself, the root, or the node's reported parent — i.e. back-edges),
is exactly the node's children in order; and no subtree node is the
root. -/
def subtreeOk (h : X11) : WTree → Bool
  | .node i nm ks =>
    (h.prop i == nm) &&
    ((h.children i).filter (childOk h i) == ks.map WTree.wid) &&
    (i != h.root) &&
    kidsOk h ks

/-- Agreement via `subtreeOk` for every subtree in a list. -/
def kidsOk (h : X11) : List WTree → Bool
  | [] => true
  | t :: ts => subtreeOk h t && kidsOk h ts

end

/-- The interface `h` agrees with a whole hierarchy rooted at `rt`:
`rt`'s id is the root, the root's property and guarded children list
agree, and every subtree agrees via `subtreeOk`. -/
def hierOk (h : X11) (rt : WTree) : Bool :=
  match rt with
  | .node i nm ks =>
    (h.root == i) && (h.prop i == nm) &&
    ((h.children i).filter (childOk h i) == ks.map WTree.wid) &&
    kidsOk h ks

/-! ## Lemmas about the tree walker -/

/-- Destructuring of `kidsOk` over a cons. -/
theorem kidsOk_parts {h : X11} {t : WTree} {ts : List WTree}
    (hk : kidsOk h (t :: ts) = true) :
    subtreeOk h t = true ∧ kidsOk h ts = true := by
  simpa [kidsOk, Bool.and_eq_true] using hk

/-- Destructuring of `subtreeOk` at a node. -/
theorem subtreeOk_parts {h : X11} {i : Nat} {nm : Option String}
    {ks : List WTree} (hs : subtreeOk h (WTree.node i nm ks) = true) :
    h.prop i = nm ∧
    (h.children i).filter (childOk h i) = ks.map WTree.wid ∧
    i ≠ h.root ∧ kidsOk h ks = true := by
  simp only [subtreeOk, Bool.and_eq_true, beq_iff_eq, bne_iff_ne, ne_eq] at hs
  exact ⟨hs.1.1.1, hs.1.1.2, hs.1.2, hs.2⟩

/-- Destructuring of `hierOk` at the root node. -/
theorem hierOk_parts {h : X11} {i : Nat} {nm : Option String}
    {ks : List WTree} (hs : hierOk h (WTree.node i nm ks) = true) :
    h.root = i ∧ h.prop i = nm ∧
    (h.children i).filter (childOk h i) = ks.map WTree.wid ∧
    kidsOk h ks = true := by
  simp only [hierOk, Bool.and_eq_true, beq_iff_eq] at hs
  exact ⟨hs.1.1.1, hs.1.1.2, hs.1.2, hs.2⟩

/-- A node with no matching id in its subtree has a non-matching name and
no matching ids below. -/
theorem matchIds_node_nil {val : String} {i : Nat} {nm : Option String}
    {ks : List WTree} (hm : WTree.matchIds val (WTree.node i nm ks) = []) :
    nm ≠ some val ∧ matchIdsList val ks = [] := by
  simp only [WTree.matchIds, List.append_eq_nil] at hm
  refine ⟨fun hc => ?_, hm.2⟩
  rw [if_pos hc] at hm
  exact absurd hm.1 (by simp)

/-- An append equal to a singleton splits on which side holds the
element. -/
theorem append_eq_singleton_cases {α : Type} {l1 l2 : List α} {m : α}
    (h : l1 ++ l2 = [m]) :
    (l1 = [] ∧ l2 = [m]) ∨ (l1 = [m] ∧ l2 = []) := by
  cases l1 with
  | nil => exact Or.inl ⟨rfl, h⟩
  | cons a t =>
    simp only [List.cons_append, List.cons.injEq] at h
    obtain ⟨ha, ht⟩ := h
    have h2 := List.append_eq_nil.mp ht
    exact Or.inr ⟨by rw [ha, h2.1], h2.2⟩

/-- Splitting a depth bound over a cons of subtrees. -/
theorem depthList_cons_le {t : WTree} {ts : List WTree} {fuel : Nat}
    (hd : depthList (t :: ts) ≤ fuel) :
    WTree.depth t ≤ fuel ∧ depthList ts ≤ fuel := by
  simp only [depthList] at hd
  exact ⟨le_trans (le_max_left _ _) hd, le_trans (le_max_right _ _) hd⟩

/-- The children loop on a matchless list of agreeing subtrees, below the
root: it fails, leaves `pReturn` and `pMaster` untouched, and visits
exactly the subtrees' nodes in preorder.  `IH` is the statement of
`find_noMatch` at the same fuel. -/
theorem findKids_noMatch (h : X11) (val : String) (fuel i : Nat)
    (hi : i ≠ h.root)
    (IH : ∀ t ret master, subtreeOk h t = true →
      WTree.matchIds val t = [] → WTree.depth t ≤ fuel →
      findX11Window h val fuel t.wid ret master =
        ⟨false, ret, master, WTree.preIds t⟩) :
    ∀ cs ks ret master,
      cs.filter (childOk h i) = ks.map WTree.wid →
      kidsOk h ks = true →
      matchIdsList val ks = [] →
      depthList ks ≤ fuel →
      findX11Kids h val fuel i cs ret master =
        ⟨false, ret, master, preIdsList ks⟩ := by
  intro cs
  induction cs with
  | nil =>
    intro ks ret master hf _ _ _
    have hks : ks = [] := by
      cases ks with
      | nil => rfl
      | cons a as => simp at hf
    subst hks
    simp [findX11Kids, preIdsList]
  | cons c cs' ih =>
    intro ks ret master hf hk hm hd
    by_cases hc : childOk h i c = true
    · rw [List.filter_cons_of_pos hc] at hf
      cases ks with
      | nil => simp at hf
      | cons k ks' =>
        simp only [List.map_cons, List.cons.injEq] at hf
        obtain ⟨hck, hf'⟩ := hf
        obtain ⟨hsk, hks'⟩ := kidsOk_parts hk
        simp only [matchIdsList, List.append_eq_nil] at hm
        obtain ⟨hdk, hdks⟩ := depthList_cons_le hd
        subst hck
        simp only [findX11Kids]
        rw [if_pos hc, if_neg hi,
            IH k ret master hsk hm.1 hdk]
        simp only []
        rw [ih ks' ret master hf' hks' hm.2 hdks]
        simp [preIdsList]
    · rw [List.filter_cons_of_neg (by simpa using hc)] at hf
      simp only [findX11Kids]
      rw [if_neg hc]
      exact ih ks ret master hf hk hm hd

/-- FindX11Window on a matchless agreeing subtree below the root: it
returns not-found, leaves `pReturn` and `pMaster` untouched, and queries
exactly the subtree's nodes, once each, in preorder. -/
theorem find_noMatch (h : X11) (val : String) :
    ∀ fuel (t : WTree) ret master, subtreeOk h t = true →
      WTree.matchIds val t = [] → WTree.depth t ≤ fuel →
      findX11Window h val fuel t.wid ret master =
        ⟨false, ret, master, WTree.preIds t⟩ := by
  intro fuel
  induction fuel with
  | zero =>
    intro t ret master _ _ hd
    exfalso
    cases t with
    | node i nm ks => simp [WTree.depth] at hd
  | succ fuel ih =>
    intro t ret master hs hm hd
    cases t with
    | node i nm ks =>
      obtain ⟨hp, hf, hi, hk⟩ := subtreeOk_parts hs
      obtain ⟨hnm, hml⟩ := matchIds_node_nil hm
      have hdl : depthList ks ≤ fuel := by
        simp only [WTree.depth] at hd
        omega
      simp only [findX11Window, WTree.wid]
      rw [hp, if_neg (by simpa using hnm)]
      rw [findKids_noMatch h val fuel i hi ih (h.children i) ks ret master
            hf hk hml hdl]
      simp [WTree.preIds]

/-- The children loop on agreeing subtrees holding exactly one match,
below the root: it succeeds with `pReturn` set to the match and `pMaster`
untouched.  `IH` is the statement of `find_match` at the same fuel. -/
theorem findKids_match (h : X11) (val : String) (fuel i : Nat)
    (hi : i ≠ h.root)
    (IH : ∀ t ret master m, subtreeOk h t = true →
      WTree.matchIds val t = [m] → WTree.depth t ≤ fuel →
      ∃ vs, findX11Window h val fuel t.wid ret master =
        ⟨true, m, master, vs⟩) :
    ∀ cs ks ret master m,
      cs.filter (childOk h i) = ks.map WTree.wid →
      kidsOk h ks = true →
      matchIdsList val ks = [m] →
      depthList ks ≤ fuel →
      ∃ vs, findX11Kids h val fuel i cs ret master =
        ⟨true, m, master, vs⟩ := by
  intro cs
  induction cs with
  | nil =>
    intro ks ret master m hf _ hm _
    exfalso
    have hks : ks = [] := by
      cases ks with
      | nil => rfl
      | cons a as => simp at hf
    subst hks
    simp [matchIdsList] at hm
  | cons c cs' ih =>
    intro ks ret master m hf hk hm hd
    by_cases hc : childOk h i c = true
    · rw [List.filter_cons_of_pos hc] at hf
      cases ks with
      | nil => simp at hf
      | cons k ks' =>
        simp only [List.map_cons, List.cons.injEq] at hf
        obtain ⟨hck, hf'⟩ := hf
        obtain ⟨hsk, hks'⟩ := kidsOk_parts hk
        obtain ⟨hdk, hdks⟩ := depthList_cons_le hd
        subst hck
        simp only [findX11Kids]
        rw [if_pos hc, if_neg hi]
        rcases append_eq_singleton_cases
            (by simpa [matchIdsList] using hm) with
          ⟨hk0, hrest⟩ | ⟨hkm, hrest⟩
        · rw [find_noMatch h val fuel k ret master hsk hk0 hdk]
          simp only []
          obtain ⟨vs2, hvs2⟩ := ih ks' ret master m hf' hks' hrest hdks
          rw [hvs2]
          exact ⟨WTree.preIds k ++ vs2, rfl⟩
        · obtain ⟨vs, hvs⟩ := IH k ret master m hsk hkm hdk
          rw [hvs]
          exact ⟨vs, rfl⟩
    · rw [List.filter_cons_of_neg (by simpa using hc)] at hf
      simp only [findX11Kids]
      rw [if_neg hc]
      exact ih ks ret master m hf hk hm hd

/-- FindX11Window on an agreeing subtree below the root holding exactly
one match: it returns found with `pReturn` the matching window and
`pMaster` untouched. -/
theorem find_match (h : X11) (val : String) :
    ∀ fuel (t : WTree) ret master m, subtreeOk h t = true →
      WTree.matchIds val t = [m] → WTree.depth t ≤ fuel →
      ∃ vs, findX11Window h val fuel t.wid ret master =
        ⟨true, m, master, vs⟩ := by
  intro fuel
  induction fuel with
  | zero =>
    intro t ret master m _ _ hd
    exfalso
    cases t with
    | node i nm ks => simp [WTree.depth] at hd
  | succ fuel ih =>
    intro t ret master m hs hm hd
    cases t with
    | node i nm ks =>
      obtain ⟨hp, hf, hi, hk⟩ := subtreeOk_parts hs
      have hdl : depthList ks ≤ fuel := by
        simp only [WTree.depth] at hd
        omega
      by_cases hnm : nm = some val
      · have him : i = m := by
          simp only [WTree.matchIds] at hm
          rw [if_pos hnm] at hm
          rcases append_eq_singleton_cases hm with ⟨h1, _⟩ | ⟨h1, _⟩
          · exact absurd h1 (by simp)
          · simpa using h1
        subst him
        simp only [findX11Window, WTree.wid]
        rw [hp, if_pos hnm]
        exact ⟨[i], rfl⟩
      · simp only [WTree.matchIds] at hm
        rw [if_neg hnm, List.nil_append] at hm
        simp only [findX11Window, WTree.wid]
        rw [hp, if_neg hnm]
        obtain ⟨vs, hvs⟩ := findKids_match h val fuel i hi ih
          (h.children i) ks ret master m hf hk hm hdl
        rw [hvs]
        exact ⟨i :: vs, rfl⟩

/-- The children loop at the root over matchless subtrees: it fails,
leaves `pReturn` untouched, visits exactly the subtrees in preorder, and
leaves `pMaster` at some value (the last root child entered, or its
initial value when none is). -/
theorem findKidsRoot_noMatch (h : X11) (val : String) (fuel : Nat) :
    ∀ cs ts ret master,
      cs.filter (childOk h h.root) = ts.map WTree.wid →
      kidsOk h ts = true →
      matchIdsList val ts = [] →
      depthList ts ≤ fuel →
      ∃ mst, findX11Kids h val fuel h.root cs ret master =
        ⟨false, ret, mst, preIdsList ts⟩ := by
  intro cs
  induction cs with
  | nil =>
    intro ts ret master hf _ _ _
    have hts : ts = [] := by
      cases ts with
      | nil => rfl
      | cons a as => simp at hf
    subst hts
    exact ⟨master, by simp [findX11Kids, preIdsList]⟩
  | cons c cs' ih =>
    intro ts ret master hf hk hm hd
    by_cases hc : childOk h h.root c = true
    · rw [List.filter_cons_of_pos hc] at hf
      cases ts with
      | nil => simp at hf
      | cons k ts' =>
        simp only [List.map_cons, List.cons.injEq] at hf
        obtain ⟨hck, hf'⟩ := hf
        obtain ⟨hsk, hks'⟩ := kidsOk_parts hk
        simp only [matchIdsList, List.append_eq_nil] at hm
        obtain ⟨hdk, hdks⟩ := depthList_cons_le hd
        subst hck
        simp only [findX11Kids]
        rw [if_pos hc, if_pos trivial,
            find_noMatch h val fuel k ret (WTree.wid k) hsk hm.1 hdk]
        simp only []
        obtain ⟨mst, hmst⟩ := ih ts' ret (WTree.wid k) hf' hks' hm.2 hdks
        rw [hmst]
        exact ⟨mst, by simp [preIdsList]⟩
    · rw [List.filter_cons_of_neg (by simpa using hc)] at hf
      simp only [findX11Kids]
      rw [if_neg hc]
      exact ih ts ret master hf hk hm hd

/-- The children loop at the root over subtrees holding exactly one
match: it succeeds with `pReturn` the match and `pMaster` the root child
whose subtree holds the match. -/
theorem findKidsRoot_match (h : X11) (val : String) (fuel : Nat) :
    ∀ cs ts ret master m,
      cs.filter (childOk h h.root) = ts.map WTree.wid →
      kidsOk h ts = true →
      matchIdsList val ts = [m] →
      depthList ts ≤ fuel →
      ∃ vs tj, tj ∈ ts ∧ WTree.matchIds val tj = [m] ∧
        findX11Kids h val fuel h.root cs ret master =
          ⟨true, m, tj.wid, vs⟩ := by
  intro cs
  induction cs with
  | nil =>
    intro ts ret master m hf _ hm _
    exfalso
    have hts : ts = [] := by
      cases ts with
      | nil => rfl
      | cons a as => simp at hf
    subst hts
    simp [matchIdsList] at hm
  | cons c cs' ih =>
    intro ts ret master m hf hk hm hd
    by_cases hc : childOk h h.root c = true
    · rw [List.filter_cons_of_pos hc] at hf
      cases ts with
      | nil => simp at hf
      | cons k ts' =>
        simp only [List.map_cons, List.cons.injEq] at hf
        obtain ⟨hck, hf'⟩ := hf
        obtain ⟨hsk, hks'⟩ := kidsOk_parts hk
        obtain ⟨hdk, hdks⟩ := depthList_cons_le hd
        subst hck
        simp only [findX11Kids]
        rw [if_pos hc, if_pos trivial]
        rcases append_eq_singleton_cases
            (by simpa [matchIdsList] using hm) with
          ⟨hk0, hrest⟩ | ⟨hkm, hrest⟩
        · rw [find_noMatch h val fuel k ret (WTree.wid k) hsk hk0 hdk]
          simp only []
          obtain ⟨vs, tj, htj, hmtj, heq⟩ :=
            ih ts' ret (WTree.wid k) m hf' hks' hrest hdks
          rw [heq]
          exact ⟨WTree.preIds k ++ vs, tj, List.mem_cons_of_mem k htj,
                 hmtj, rfl⟩
        · obtain ⟨vs, hvs⟩ :=
            find_match h val fuel k ret (WTree.wid k) m hsk hkm hdk
          rw [hvs]
          exact ⟨vs, k, List.mem_cons_self k ts', hkm, rfl⟩
    · rw [List.filter_cons_of_neg (by simpa using hc)] at hf
      simp only [findX11Kids]
      rw [if_neg hc]
      exact ih ts ret master m hf hk hm hd

/-- Claim C2: on any finite hierarchy the interface agrees with, holding
exactly one window `m` whose property equals `val` (a proper descendant
of the root — the claim's "root-child on the root-to-match path"
presupposes this), a search started at the root with enough fuel returns
found, sets `pReturn` to `m`, and sets `pMaster` to the child of the
root whose subtree holds `m` — for every enumeration order, since the
hierarchy (and hence each node's children order) is universally
quantified. -/
theorem claim_C2 (h : X11) (val : String) (rt : WTree)
    (fuel ret master m : Nat)
    (hok : hierOk h rt = true)
    (hm : WTree.matchIds val rt = [m])
    (hroot : rt.wname ≠ some val)
    (hd : rt.depth ≤ fuel) :
    ∃ vs tj, tj ∈ rt.kids ∧ WTree.matchIds val tj = [m] ∧
      findX11Window h val fuel rt.wid ret master =
        ⟨true, m, tj.wid, vs⟩ := by
  cases rt with
  | node r rn ts =>
    obtain ⟨hr, hp, hf, hk⟩ := hierOk_parts hok
    subst hr
    have hrn : rn ≠ some val := by simpa [WTree.wname] using hroot
    simp only [WTree.matchIds] at hm
    rw [if_neg hrn, List.nil_append] at hm
    cases fuel with
    | zero =>
      exfalso
      simp [WTree.depth] at hd
    | succ fuel =>
      have hdl : depthList ts ≤ fuel := by
        simp only [WTree.depth] at hd
        omega
      simp only [findX11Window, WTree.wid, WTree.kids]
      rw [hp, if_neg hrn]
      obtain ⟨vs, tj, htj, hmtj, heq⟩ :=
        findKidsRoot_match h val fuel (h.children h.root) ts ret master m
          hf hk hm hdl
      rw [heq]
      exact ⟨h.root :: vs, tj, htj, hmtj, rfl⟩

/-- Claim C8: on any finite hierarchy the interface agrees with (its
children lists may carry back-edges to the root or to a node's parent,
which is exactly what the skip guard removes) holding no matching
window, the search returns not-found, leaves `pReturn` untouched, and
queries every window of the hierarchy exactly once: the visited trace is
the hierarchy's preorder id list, without duplicates. -/
theorem claim_C8 (h : X11) (val : String) (rt : WTree)
    (fuel ret master : Nat)
    (hok : hierOk h rt = true)
    (hm : WTree.matchIds val rt = [])
    (hd : rt.depth ≤ fuel)
    (hnd : (WTree.preIds rt).Nodup) :
    ∃ mst, findX11Window h val fuel rt.wid ret master =
        ⟨false, ret, mst, WTree.preIds rt⟩ ∧
      (findX11Window h val fuel rt.wid ret master).visited.Nodup := by
  cases rt with
  | node r rn ts =>
    obtain ⟨hr, hp, hf, hk⟩ := hierOk_parts hok
    subst hr
    obtain ⟨hrn, hml⟩ := matchIds_node_nil hm
    cases fuel with
    | zero =>
      exfalso
      simp [WTree.depth] at hd
    | succ fuel =>
      have hdl : depthList ts ≤ fuel := by
        simp only [WTree.depth] at hd
        omega
      obtain ⟨mst, hmst⟩ :=
        findKidsRoot_noMatch h val fuel (h.children h.root) ts ret master
          hf hk hml hdl
      refine ⟨mst, ?_, ?_⟩
      · simp only [findX11Window, WTree.wid]
        rw [hp, if_neg hrn, hmst]
        simp [WTree.preIds]
      · simp only [findX11Window, WTree.wid]
        rw [hp, if_neg hrn, hmst]
        simpa [WTree.preIds] using hnd

/-- A concrete window hierarchy for the walker witnesses: root 1 with
children 2 (whose subtree holds 4) and 3; window 3 carries the name
"vlc".  The interface's children lists carry a back-edge to the root
(window 1 among the children of 2) and a back-edge to the parent
(window 2 among the children of 4), both of which the skip guard
removes. -/
def hW : X11 :=
  { prop := fun n =>
      if n = 2 then some "a" else if n = 3 then some "vlc" else none,
    parent := fun n =>
      if n = 2 then 1 else if n = 3 then 1 else if n = 4 then 2 else 0,
    children := fun n =>
      if n = 1 then [2, 3]
      else if n = 2 then [4, 1]
      else if n = 4 then [2]
      else [],
    root := 1 }

/-- The synthetic tree the interface `hW` agrees with. -/
def treeW : WTree :=
  .node 1 none
    [.node 2 (some "a") [.node 4 none []],
     .node 3 (some "vlc") []]

/-- Witness for claim C2 at a concrete input: searching `hW` for "vlc"
finds window 3 and reports root child 3 as the master. -/
theorem claim_C2_witness :
    WTree.matchIds "vlc" treeW = [3] ∧
    (∃ vs tj, tj ∈ treeW.kids ∧ WTree.matchIds "vlc" tj = [3] ∧
      findX11Window hW "vlc" 3 treeW.wid 0 0 = ⟨true, 3, tj.wid, vs⟩) :=
  ⟨by decide,
   claim_C2 hW "vlc" treeW 3 0 0 3 (by decide) (by decide) (by decide)
     (by decide)⟩

/-- Witness for claim C8 at a concrete input: searching `hW` for a value
no window carries fails and visits each of 1, 2, 4, 3 exactly once,
despite the back-edges. -/
theorem claim_C8_witness :
    WTree.matchIds "zzz" treeW = [] ∧
    (∃ mst, findX11Window hW "zzz" 3 treeW.wid 0 0 =
        ⟨false, 0, mst, WTree.preIds treeW⟩ ∧
      (findX11Window hW "zzz" 3 treeW.wid 0 0).visited.Nodup) :=
  ⟨by decide,
   claim_C8 hW "zzz" treeW 3 0 0 (by decide) (by decide) (by decide)
     (by decide)⟩

/-! ## The init / teardown skeleton of `main` (fsplayer.c) -/

/-- The environment of one run of the X11 `main`: which initialization
step would succeed if reached.  `argOk` bundles `argc == 2` with
`FilenameExist(argv[1])` (both failures set `ERROR_FSPLAYER_USAGE` before
anything is acquired).  `inputGarbage` is the indeterminate initial
truthiness of the uninitialized local `wInput` (only `wTaskbar` carries
an initializer among `main`'s `Window` locals). -/
structure InitEnv where
  argOk : Bool
  displayOk : Bool
  vlcPreRunning : Bool
  inputWinOk : Bool
  atomsOk : Bool
  vlcNewOk : Bool
  mediaNewOk : Bool
  playerNewOk : Bool
  videoSizeOk : Bool
  lengthPos : Bool
  manyTracks : Bool
  mallocOk : Bool
  vlcWinFound : Bool
  taskbarFound : Bool
  playOk : Bool
  inputGarbage : Bool
deriving DecidableEq, Repr

/-- The operations `main` performs between the end of the `if (!iErr)`
initialization chain and `return`: the event-loop setup
(`iX11fd = ConnectionNumber(pX11Display)`, which reads through the
display pointer) and the teardown calls, in source order. -/
inductive TOp where
  | connNumber
  | playerStop
  | taskbarRaiseOp
  | playerRelease
  | instRelease
  | freeIds
  | destroyWin
  | closeDisplay
deriving DecidableEq, Repr

/-- The outcome of the initialization chain: the final `iErr`, the
`iPlay` flag, which resources were acquired (display, VLC instance,
player, track-id list, taskbar), the truthiness the teardown guard sees
for `wInput`, and the operations executed after the chain. -/
structure RunResult where
  err : Nat
  play : Bool
  display : Bool
  inst : Bool
  player : Bool
  ids : Bool
  winTruthy : Bool
  taskbar : Bool
  ops : List TOp
deriving DecidableEq, Repr

/-- The `if (!iErr)` chain of the X11 `main`, step by step in source
order, followed by the unconditional event-loop setup and the guarded
teardown: `ConnectionNumber(pX11Display)` always executes; stop runs
only under `if (iPlay)`; `TaskbarRaise` maps/raises only when
`wTaskbar != 0`; the releases, the free, `XDestroyWindow` and
`XCloseDisplay` run under `if (pVlcPlayer)`, `if (pVlcInst)`,
`if (pVlcAudioTrackId)`, `if (wInput)` and `if (pX11Display)`
respectively — but `wInput` is uninitialized on paths that never reach
`XCreateWindow`. -/
def mainRun (e : InitEnv) : RunResult :=
  let err := if !e.argOk then ERROR_FSPLAYER_USAGE else 0
  let display := err == 0 && e.displayOk
  let err := if err == 0 && !e.displayOk then ERROR_FSPLAYER_X11 else err
  let err := if err == 0 && e.vlcPreRunning then ERROR_FSPLAYER_VLCRUN else err
  let winTruthy := if err == 0 then e.inputWinOk else e.inputGarbage
  let err := if err == 0 && !e.inputWinOk then ERROR_FSPLAYER_X11 else err
  let err := if err == 0 && !e.atomsOk then ERROR_FSPLAYER_X11 else err
  let inst := err == 0 && e.vlcNewOk
  let err := if err == 0 && !e.vlcNewOk then ERROR_FSPLAYER_VLC else err
  let player := err == 0 && e.mediaNewOk && e.playerNewOk
  let err := if err == 0 && !(e.mediaNewOk && e.playerNewOk) then
               ERROR_FSPLAYER_VLC else err
  let play := err == 0
  let err := if err == 0 && !e.videoSizeOk then ERROR_FSPLAYER_VLC else err
  let err := if err == 0 && !e.lengthPos then ERROR_FSPLAYER_VLC else err
  let ids := err == 0 && e.manyTracks && e.mallocOk
  let err := if err == 0 && e.manyTracks && !e.mallocOk then
               ERROR_FSPLAYER_MEM else err
  let err := if err == 0 && !e.vlcWinFound then ERROR_FSPLAYER_FAIL else err
  let taskbar := err == 0 && e.taskbarFound
  let err := if err == 0 && !e.playOk then ERROR_FSPLAYER_VLC else err
  let ops :=
    [TOp.connNumber]
    ++ (if play then [TOp.playerStop] else [])
    ++ (if taskbar then [TOp.taskbarRaiseOp] else [])
    ++ (if player then [TOp.playerRelease] else [])
    ++ (if inst then [TOp.instRelease] else [])
    ++ (if ids then [TOp.freeIds] else [])
    ++ (if winTruthy then [TOp.destroyWin] else [])
    ++ (if display then [TOp.closeDisplay] else [])
  ⟨err, play, display, inst, player, ids, winTruthy, taskbar, ops⟩

/-- The post-chain operations that read through the display pointer
(`ConnectionNumber` is a macro expanding to a field access through
`pX11Display`; `XMapRaised`, `XDestroyWindow` and `XCloseDisplay` all
dereference the display). -/
def needsDisplay : TOp → Bool
  | .connNumber => true
  | .taskbarRaiseOp => true
  | .destroyWin => true
  | .closeDisplay => true
  | _ => false

/-- Every executed post-chain operation that reads through the display
pointer runs only when the display connection was actually opened. -/
def teardownSafe (r : RunResult) : Bool :=
  r.ops.all fun op => !(needsDisplay op) || r.display

/-- The usage-error run: `fsplayer` invoked without a file argument
(`argc != 2`), with an uninitialized `wInput` that happens to read as
zero. -/
def envUsage : InitEnv :=
  { argOk := false, displayOk := true, vlcPreRunning := false,
    inputWinOk := true, atomsOk := true, vlcNewOk := true,
    mediaNewOk := true, playerNewOk := true, videoSizeOk := true,
    lengthPos := true, manyTracks := true, mallocOk := true,
    vlcWinFound := true, taskbarFound := true, playOk := true,
    inputGarbage := false }

/-- The same usage-error run with an uninitialized `wInput` that happens
to read as non-zero. -/
def envUsageG : InitEnv :=
  { envUsage with inputGarbage := true }

/-- Claim C4 fails on the code (code bug): on the usage-error path the
display connection is never opened, yet the event-loop setup
`iX11fd = ConnectionNumber(pX11Display)` still executes and reads
through the NULL display pointer; and when the uninitialized `wInput`
happens to be non-zero, the `if (wInput)` teardown guard also lets
`XDestroyWindow(pX11Display, wInput)` run against the NULL display. -/
theorem claim_C4 :
    ((mainRun envUsage).err = ERROR_FSPLAYER_USAGE ∧
     (mainRun envUsage).display = false ∧
     TOp.connNumber ∈ (mainRun envUsage).ops ∧
     teardownSafe (mainRun envUsage) = false) ∧
    (TOp.destroyWin ∈ (mainRun envUsageG).ops ∧
     (mainRun envUsageG).display = false ∧
     teardownSafe (mainRun envUsageG) = false) := by
  decide
